import Mathlib

/-!
Verification of the skift fastText/scikit-learn adapter (`skift/core.py`).

The development is a shallow embedding of `core.py`:
* Python strings are `List Char` (`Text`); slicing `s[9:]` is `List.drop 9`.
* numpy element dtypes are the inductive `Dtype`; `'<U26'` is `Dtype.unicode 26`.
* the external fastText engine is a black box: a trained model is a function
  `Text → Nat → List Text × List Rat` (text and top-k count in, parallel
  label/score sequences out), exactly the contract the adapter relies on.
* fallible Python code returns `Except PyError`; a list comprehension whose
  body may raise is `mapE`.
* `fit`'s observable side effects (writing the training file, invoking the
  trainer) are returned as an explicit `Effect` trace.
* Python's `sorted` (a stable sort) is modelled by `List.insertionSort`,
  which is also stable.
-/

/-- A Python string, as its sequence of characters. -/
abbrev Text := List Char

/-- A keyword-options mapping (`**kwargs`), as an association list; the code
only ever stores, pops one key from, and forwards these mappings, so option
values are kept opaque as strings. -/
abbrev Kwargs := List (String × String)

/-- The Python exception classes the adapter can raise or propagate. -/
inductive PyError where
  | valueError (msg : String)
  | typeError (msg : String)
  | notFittedError
  | attributeError
  | indexError
  | keyError
  deriving DecidableEq, Repr

/-- The numpy element dtypes relevant to `_validate_x`: fixed-width unicode
`'<U{width}'`, the generic `object` dtype, and representative other dtypes. -/
inductive Dtype where
  | unicode (width : Nat)
  | object
  | int64
  | float64
  deriving DecidableEq, Repr

/-- The spec's notion of a fixed-width text element type (any `'<U{n}'` numpy
dtype); stated from the spec's words in order to formalise C4 as written. -/
def Dtype.isFixedWidthText : Dtype → Bool
  | .unicode _ => true
  | _ => false

/-- `FtClassifierABC.ALLOWED_DTYPES_ = ['<U26', object]` (core.py line 38). -/
def ALLOWED_DTYPES_ : List Dtype := [.unicode 26, .object]

/-- `FtClassifierABC._validate_x` (core.py lines 40-49): accept iff the
element dtype is in `ALLOWED_DTYPES_`, else raise `ValueError`. The
`AttributeError` branch (converting a non-array argument with `np.array`)
is absorbed by modelling the argument by the dtype of its array form. -/
def validate_x (d : Dtype) : Except PyError Unit :=
  if d ∈ ALLOWED_DTYPES_ then .ok ()
  else .error (.valueError
    "FastTextClassifier methods must get a numpy array of dtype object as the X parameter.")

/-- `FtClassifierABC._validate_y` (core.py lines 51-60): accept iff the array
rank (`len(y.shape)`) is one, else raise `ValueError`. -/
def validate_y (shape : List Nat) : Except PyError Unit :=
  if shape.length = 1 then .ok ()
  else .error (.valueError
    "FastTextClassifier methods must get a one-dimensional numpy array as the y parameter.")

/-- The ASCII digit character for `d` (meaningful for `d < 10`). -/
def digitChar (d : Nat) : Char := Char.ofNat (48 + d)

/-- Division-chain worker for `natDigits`, structurally recursive on a fuel
bound so that concrete label strings evaluate definitionally; `fuel > n`
always suffices because the dividend strictly shrinks. -/
def natDigitsF : Nat → Nat → List Char
  | 0, _ => []
  | fuel + 1, n =>
    if n < 10 then [digitChar n]
    else natDigitsF fuel (n / 10) ++ [digitChar (n % 10)]

/-- Decimal digit characters of `n`, most significant first (`str(n)` for a
nonnegative `n`; note `str(0) = "0"`). -/
def natDigits (n : Nat) : List Char := natDigitsF (n + 1) n

/-- Python's `str` on an integer. -/
def pyStrInt (n : Int) : Text :=
  if n < 0 then '-' :: natDigits n.natAbs else natDigits n.natAbs

/-- The numeric value of a digit character, `none` for a non-digit. -/
def digitVal? (c : Char) : Option Nat :=
  if c.isDigit then some (c.toNat - 48) else none

/-- Left-to-right accumulation of a decimal digit string. -/
def parseDigitsAux : List Char → Nat → Option Nat
  | [], acc => some acc
  | c :: cs, acc =>
    match digitVal? c with
    | some d => parseDigitsAux cs (acc * 10 + d)
    | none => none

/-- Parse a nonempty all-digit string as a natural number. -/
def parseDigits : List Char → Option Nat
  | [] => none
  | cs => parseDigitsAux cs 0

/-- Python's `int` on a string, restricted to the forms the adapter can meet:
an optional sign followed by decimal digits (`int` also strips whitespace and
accepts underscores, which never occur in label tokens). -/
def pyInt (s : Text) : Option Int :=
  match s with
  | [] => none
  | c :: rest =>
    if c = '-' then (parseDigits rest).map (fun n => -(n : Int))
    else if c = '+' then (parseDigits rest).map (fun n => (n : Int))
    else (parseDigits (c :: rest)).map (fun n => (n : Int))

/-- A pandas column label: the adapters use string labels, but pandas also
admits integer labels (e.g. the default `RangeIndex` columns). -/
inductive ColName where
  | str (s : String)
  | int (n : Int)
  deriving DecidableEq, Repr

/-- Python truthiness of a column label, as tested by `if input_col_name:`
in `FirstObjFtClassifier._input_col` (core.py line 208): the empty string
and the number zero are falsy. -/
def ColName.truthy : ColName → Bool
  | .str s => s ≠ ""
  | .int n => n ≠ 0

/-- One column of a pandas DataFrame: its label, element dtype and values. -/
structure DFCol where
  name : ColName
  dtype : Dtype
  values : List Text
  deriving DecidableEq, Repr

/-- A pandas DataFrame, as its columns in declared order. -/
structure DataFrame where
  cols : List DFCol
  deriving DecidableEq, Repr

/-- Number of rows of a DataFrame. -/
def DataFrame.nRows (d : DataFrame) : Nat :=
  match d.cols with
  | [] => 0
  | c :: _ => c.values.length

/-- A two-dimensional numpy array of text cells with its element dtype (cells
of a rejected dtype are never read, so text cells suffice). -/
structure NDArray where
  dtype : Dtype
  rows : List (List Text)
  deriving DecidableEq, Repr

/-- `X[:, i]`: column `i` of a positional array, one cell per row in row
order; numpy raises `IndexError` when the index is out of bounds. -/
def NDArray.col (a : NDArray) (i : Nat) : Except PyError (List Text) :=
  if a.rows.all (fun r => i < r.length) then
    .ok (a.rows.map (fun r => r.getD i []))
  else .error .indexError

/-- The `X` argument of `fit`/`predict`/`predict_proba`: a positional numpy
array for the positional adapters, a labeled DataFrame for the labeled ones. -/
inductive XInput where
  | arr (a : NDArray)
  | df (d : DataFrame)
  deriving DecidableEq, Repr

/-- The element dtype `_validate_x` sees. An ndarray carries its dtype; a
DataFrame has no `.dtype` attribute, so `_validate_x` retries on `np.array(X)`
— modelled by numpy's conversion dtype: the shared column dtype when all
columns agree, otherwise the generic `object` dtype (every text-bearing frame
these adapters are meant for converts to `object`). -/
def XInput.dtype : XInput → Dtype
  | .arr a => a.dtype
  | .df d =>
    match d.cols with
    | [] => .float64
    | c :: rest => if rest.all (fun x => x.dtype == c.dtype) then c.dtype else .object

/-- Number of rows of the input table. -/
def XInput.nRows : XInput → Nat
  | .arr a => a.rows.length
  | .df d => d.nRows

/-- Rectangularity of the input table: every DataFrame column has one value
per row (a positional array is indexed row-wise, so nothing is required). -/
def XInput.WF : XInput → Prop
  | .arr _ => True
  | .df d => ∀ c ∈ d.cols, c.values.length = d.nRows

/-- `X[name]`: pandas column lookup by label, taking the first column with
the given label; a missing label raises `KeyError`. -/
def DataFrame.getCol (d : DataFrame) (name : ColName) : Except PyError (List Text) :=
  match d.cols.find? (fun c => c.name == name) with
  | some c => .ok c.values
  | none => .error .keyError

/-- `FirstObjFtClassifier._input_col` (core.py lines 202-210): scan
`X.dtypes` in declared order for the first `object`-dtype column, remember
its label, and return `X[label]` — but only when the remembered label is
truthy (`if input_col_name:`); otherwise raise
`ValueError("No object dtype column in input param X.")`. -/
def firstObjInputCol (d : DataFrame) : Except PyError (List Text) :=
  match d.cols.find? (fun c => c.dtype == Dtype.object) with
  | some c =>
    if c.name.truthy then d.getCol c.name
    else .error (.valueError "No object dtype column in input param X.")
  | none => .error (.valueError "No object dtype column in input param X.")

/-- The strategy for extracting the text column, the only point of variation
between the four adapter classes. -/
inductive Strategy where
  | firstCol
  | idxBased (input_ix : Nat)
  | firstObj
  | colLbl (input_col_lbl : ColName)
  deriving DecidableEq, Repr

/-- `_input_col` of each adapter class (core.py lines 167-168, 186-187,
202-210, 231-232). Applying a positional strategy to a DataFrame or a
labeled strategy to a plain array is outside every class's documented
contract and surfaces as a `TypeError`-class failure of the container. -/
def input_col : Strategy → XInput → Except PyError (List Text)
  | .firstCol, .arr a => a.col 0
  | .idxBased ix, .arr a => a.col ix
  | .firstObj, .df d => firstObjInputCol d
  | .colLbl lbl, .df d => d.getCol lbl
  | _, _ => .error (.typeError "input container does not match the adapter variant")

/-- A trained fastText model (opaque collaborator):
`model.predict(text, k)` returns parallel sequences of label tokens and
scores. -/
abbrev Model := Text → Nat → List Text × List Rat

/-- The mutable attribute state of an `FtClassifierABC` instance. Attributes
that `fit` creates (`classes_`, `num_classes_`, `class_labels_`,
`temp_trainset_fpath`, `model`) are `Option`s: reading one on an unfitted
instance is Python's `AttributeError`. -/

structure FtClassifier where
  strategy : Strategy
  kwargs : Kwargs
  classes_ : Option (List Int) := none
  num_classes_ : Option Nat := none
  class_labels_ : Option (List Text) := none
  temp_trainset_fpath : Option String := none
  model : Option Model := none

/-- `self.kwargs.pop('input', None)` (core.py line 36): remove the reserved
training-file-path key from the stored options. -/
def popInput (kw : Kwargs) : Kwargs := kw.filter (fun p => !(p.1 == "input"))

/-- `FtClassifierABC.__init__` (core.py lines 34-36). -/
def FtClassifierABC.init (strategy : Strategy) (kwargs : Kwargs) : FtClassifier :=
  { strategy := strategy, kwargs := popInput kwargs }

/-- `FirstColFtClassifier`: no own `__init__`, the base one receives the
keyword arguments. -/
def FirstColFtClassifier.init (kwargs : Kwargs) : FtClassifier :=
  FtClassifierABC.init .firstCol kwargs

/-- `IdxBasedFtClassifier.__init__` (core.py lines 182-184): it accepts
`**kwargs` but calls `super().__init__()` with no arguments, so the received
options are discarded rather than stored. -/
def IdxBasedFtClassifier.init (input_ix : Nat) (_kwargs : Kwargs) : FtClassifier :=
  FtClassifierABC.init (.idxBased input_ix) []

/-- `FirstObjFtClassifier`: no own `__init__`, the base one receives the
keyword arguments. -/
def FirstObjFtClassifier.init (kwargs : Kwargs) : FtClassifier :=
  FtClassifierABC.init .firstObj kwargs

/-- `ColLblBasedFtClassifier.__init__` (core.py lines 227-229): like
`IdxBasedFtClassifier.__init__` it calls `super().__init__()` with no
arguments, discarding the received options. -/
def ColLblBasedFtClassifier.init (input_col_lbl : ColName) (_kwargs : Kwargs) : FtClassifier :=
  FtClassifierABC.init (.colLbl input_col_lbl) []

/-- The four public adapter classes. -/
inductive Variant where
  | firstCol
  | idxBased (input_ix : Nat)
  | firstObj
  | colLbl (input_col_lbl : ColName)
  deriving DecidableEq, Repr

/-- Construct an adapter of the given class with the given keyword options. -/
def construct : Variant → Kwargs → FtClassifier
  | .firstCol, kw => FirstColFtClassifier.init kw
  | .idxBased ix, kw => IdxBasedFtClassifier.init ix kw
  | .firstObj, kw => FirstObjFtClassifier.init kw
  | .colLbl lbl, kw => ColLblBasedFtClassifier.init lbl kw

/-- `sklearn.utils.multiclass.unique_labels` on an integer label vector:
the sorted list of distinct labels (external collaborator, modelled by its
contract). -/
def unique_labels (ys : List Int) : List Int :=
  List.insertionSort (fun a b => a ≤ b) ys.dedup

/-- The fixed label-prefix token `'__label__'` of the fastText line format. -/
def labelTag : Text := "__label__".toList

/-- `'__label__{}'.format(lbl)` (core.py lines 87-88). -/
def formatLabel (lbl : Int) : Text := labelTag ++ pyStrInt lbl

/-- `FtClassifierABC._clean_label` (core.py lines 99-101): `int(ft_label[9:])`
— drop the first nine characters and parse the rest as an integer; an
unparseable remainder is Python's `ValueError` from `int`. -/
def clean_label (ft_label : Text) : Except PyError Int :=
  match pyInt (ft_label.drop 9) with
  | some n => .ok n
  | none => .error (.valueError "invalid literal for int() with base 10")

/-- Observable side effects of `fit`. -/
inductive Effect where
  | fileWrite (path : String) (lines : List Text)
  | trainCall (path : String) (options : Kwargs)

/-- One line of the training file. Modelled from the spec: the dump function
(`dump_xy_to_fasttext_format` in `skift/util.py`) is not under `src/`; the
spec fixes the line format `<label-prefix><label><single space><text>`,
newline-terminated — lines are kept here without the trailing newline. -/
def dumpLine (text : Text) (lbl : Int) : Text :=
  labelTag ++ pyStrInt lbl ++ [' '] ++ text

/-- The full training-file contents, one line per example. -/
def dump_xy_lines (col : List Text) (ys : List Int) : List Text :=
  (col.zip ys).map (fun p => dumpLine p.1 p.2)

/-- `FtClassifierABC.fit` (core.py lines 66-97). `trainer` abstracts
`fastText.train_supervised` (minus its `input=` argument, which `fit` always
sets to its own fresh path) and `fpath` the randomly suffixed temp-file name
chosen for this call. Returns the new attribute state (or the raised error)
together with the trace of side effects; validation errors occur before any
effect. -/
def FtClassifier.fit (trainer : String → Kwargs → Model) (fpath : String)
    (c : FtClassifier) (X : XInput) (yShape : List Nat) (yData : List Int) :
    Except PyError FtClassifier × List Effect :=
  match validate_x X.dtype with
  | .error e => (.error e, [])
  | .ok _ =>
    match validate_y yShape with
    | .error e => (.error e, [])
    | .ok _ =>
      let classes := unique_labels yData
      let num_classes := classes.length
      let class_labels := classes.map formatLabel
      match input_col c.strategy X with
      | .error e => (.error e, [])
      | .ok col =>
        let lines := dump_xy_lines col yData
        let model := trainer fpath c.kwargs
        (.ok { c with
            classes_ := some classes,
            num_classes_ := some num_classes,
            class_labels_ := some class_labels,
            temp_trainset_fpath := some fpath,
            model := some model },
         [.fileWrite fpath lines, .trainCall fpath c.kwargs])

/-- A Python list comprehension whose body may raise: evaluate left to right,
propagating the first error. -/
def mapE (f : α → Except PyError β) : List α → Except PyError (List β)
  | [] => .ok []
  | a :: as => match f a with
    | .error e => .error e
    | .ok b => (mapE f as).map (fun bs => b :: bs)

/-- `FtClassifierABC._predict` (core.py lines 103-111): `check_is_fitted`
(raising `NotFittedError` when the `model` attribute is missing), then input
validation and extraction, then one model query per row. -/
def FtClassifier.predictRaw (c : FtClassifier) (X : XInput) (k : Nat) :
    Except PyError (List (List Text × List Rat)) :=
  match c.model with
  | none => .error .notFittedError
  | some m =>
    match validate_x X.dtype with
    | .error e => .error e
    | .ok _ =>
      match input_col c.strategy X with
      | .error e => .error e
      | .ok col => .ok (col.map (fun text => m text k))

/-- `FtClassifierABC.predict` (core.py lines 113-129): top-1 query per row,
then `_clean_label(res[0][0])` (an empty label sequence would be an
`IndexError`). -/
def FtClassifier.predict (c : FtClassifier) (X : XInput) : Except PyError (List Int) :=
  match c.predictRaw X 1 with
  | .error e => .error e
  | .ok results =>
    mapE (fun res =>
      match res.1.head? with
      | some lbl => clean_label lbl
      | none => .error .indexError) results

/-- `list.index` (used as the sort key in `_format_probas`): the first index
of `x`, or `ValueError` when `x` does not occur. -/
def pyIndexE : List Text → Text → Except PyError Nat
  | [], _ => .error (.valueError "is not in list")
  | y :: ys, x => if y = x then .ok 0 else (pyIndexE ys x).map (· + 1)

/-- `FtClassifierABC._format_probas` (core.py lines 131-135): zip the
parallel label/score sequences, sort the pairs by the label's position in
`class_labels_` (Python's `sorted` computes each key first, so a missing
label raises `ValueError` before sorting), and keep the scores. -/
def format_probas (class_labels : List Text) (result : List Text × List Rat) :
    Except PyError (List Rat) :=
  let lbl_prob_pairs := result.1.zip result.2
  match mapE (fun p => (pyIndexE class_labels p.1).map (fun i => (i, p))) lbl_prob_pairs with
  | .error e => .error e
  | .ok keyed =>
    .ok ((List.insertionSort (fun a b => a.1 ≤ b.1) keyed).map (fun x => x.2.2))

/-- `FtClassifierABC.predict_proba` (core.py lines 137-154):
`self._predict(X, self.num_classes_)` evaluates the `num_classes_` attribute
before `_predict` (and its fitted check) runs, and each row's
`_format_probas` reads the `class_labels_` attribute. -/
def FtClassifier.predict_proba (c : FtClassifier) (X : XInput) :
    Except PyError (List (List Rat)) :=
  match c.num_classes_ with
  | none => .error .attributeError
  | some k =>
    match c.predictRaw X k with
    | .error e => .error e
    | .ok results =>
      mapE (fun res =>
        match c.class_labels_ with
        | none => .error .attributeError
        | some cl => format_probas cl res) results

/-- The value `list.index` returns (its first-occurrence index). -/
def idxVal (l : List Text) (x : Text) : Nat :=
  match l with
  | [] => 0
  | y :: ys => if y = x then 0 else idxVal ys x + 1

instance : IsTotal (Nat × (Text × Rat)) (fun a b => a.1 ≤ b.1) :=
  ⟨fun a b => Nat.le_total a.1 b.1⟩

instance : IsTrans (Nat × (Text × Rat)) (fun a b => a.1 ≤ b.1) :=
  ⟨fun _ _ _ h1 h2 => Nat.le_trans h1 h2⟩

instance : IsAntisymm (Nat × (Text × Rat)) (fun a b => a.1 < b.1) :=
  ⟨fun _ _ h1 h2 => absurd (Nat.lt_trans h1 h2) (Nat.lt_irrefl _)⟩

instance : IsTotal Int (fun a b => a ≤ b) := ⟨Int.le_total⟩

instance : IsTrans Int (fun a b => a ≤ b) := ⟨fun _ _ _ => Int.le_trans⟩

/-- A trainer stub whose model returns no results; used to evaluate `fit`
effect traces on concrete inputs. -/
def noopTrainer : String → Kwargs → Model := fun _ _ => fun _ _ => ([], [])

/-- A model that returns a single (registry) label even when asked for two
results, as a trainer with label filtering can; used for the C5 evaluation. -/
def shortModel : Model := fun _ _ => (["__label__0".toList], [(1 : Rat)])

/-- A two-class fitted attribute state paired with `shortModel`. -/
def shortState : FtClassifier :=
  { strategy := .firstCol, kwargs := [],
    classes_ := some [0, 1], num_classes_ := some 2,
    class_labels_ := some ["__label__0".toList, "__label__1".toList],
    temp_trainset_fpath := some "f", model := some shortModel }

/-- A model whose best label is always `__label__5`; used to evaluate
`predict` on a concrete fitted state. -/
def c1Model : Model := fun _ _ => (["__label__5".toList], [(1 : Rat)])

/-- A fitted attribute state paired with `c1Model`. -/
def c1State : FtClassifier :=
  { strategy := .firstCol, kwargs := [], model := some c1Model }

/-- A two-class model answering top-1 queries with its best label and top-2
queries with both labels, best first. -/
def probaModel : Model := fun _ k =>
  if k = 1 then (["__label__1".toList], [(3 : Rat) / 4])
  else (["__label__1".toList, "__label__0".toList], [(3 : Rat) / 4, (1 : Rat) / 4])

/-- A trainer stub returning `probaModel`. -/
def probaTrainer : String → Kwargs → Model := fun _ _ => probaModel

/-- A concrete two-row object-dtype input array. -/
def probaX : XInput := .arr ⟨.object, [["a".toList], ["b".toList]]⟩

/-- The attribute state produced by fitting a first-column adapter on
`probaX` with labels `[1, 0]` under `probaTrainer`. -/
def probaState : FtClassifier :=
  match (FtClassifier.fit probaTrainer "f" (FirstColFtClassifier.init [])
      probaX [2] [1, 0]).1 with
  | .ok c => c
  | .error _ => FirstColFtClassifier.init []

/-- The score `probaModel` attaches to each registry label. -/
def probaP : Text → Text → Rat := fun _ lbl =>
  if lbl = "__label__0".toList then (1 : Rat) / 4 else (3 : Rat) / 4

/-- A DataFrame whose only column has the object dtype but the falsy label
`0`; the input for the C6 evaluation. -/
def falsyNameDF : DataFrame := ⟨[⟨.int 0, .object, ["good".toList]⟩]⟩

/-! ### Theorems about the embedding -/

theorem natDigitsF_congr : ∀ f1 f2 n, n < f1 → n < f2 →
    natDigitsF f1 n = natDigitsF f2 n := by
  intro f1
  induction f1 with
  | zero => intro f2 n h1; exact absurd h1 (by omega)
  | succ f1' ih =>
    intro f2 n h1 h2
    cases f2 with
    | zero => exact absurd h2 (by omega)
    | succ f2' =>
      by_cases hn : n < 10
      · simp [natDigitsF, hn]
      · have hdiv : n / 10 < n := Nat.div_lt_self (by omega) (by omega)
        simp only [natDigitsF, hn, if_false]
        rw [ih f2' (n / 10) (by omega) (by omega)]

/-- One-step unfolding of `natDigits` as a division chain. -/
theorem natDigits_unfold (n : Nat) :
    natDigits n = if n < 10 then [digitChar n]
      else natDigits (n / 10) ++ [digitChar (n % 10)] := by
  rw [natDigits, natDigitsF]
  by_cases hn : n < 10
  · simp [hn]
  · have hdiv : n / 10 < n := Nat.div_lt_self (by omega) (by omega)
    simp only [hn, if_false]
    rw [natDigits, natDigitsF_congr n (n / 10 + 1) (n / 10) (by omega) (by omega)]

theorem digitVal?_digitChar (d : Nat) (h : d < 10) : digitVal? (digitChar d) = some d := by
  interval_cases d <;> decide

theorem digitChar_not_sign (d : Nat) (h : d < 10) :
    digitChar d ≠ '-' ∧ digitChar d ≠ '+' := by
  interval_cases d <;> decide

theorem natDigits_shape (n : Nat) :
    ∃ d cs, natDigits n = digitChar d :: cs ∧ d < 10 := by
  induction n using Nat.strong_induction_on with
  | _ n ih =>
    rw [natDigits_unfold]
    split
    · exact ⟨n, [], rfl, by omega⟩
    · obtain ⟨d, cs, heq, hd⟩ := ih (n / 10) (Nat.div_lt_self (by omega) (by omega))
      exact ⟨d, cs ++ [digitChar (n % 10)], by rw [heq]; simp, hd⟩

theorem parseDigitsAux_natDigits (n : Nat) : ∀ (rest : List Char) (acc : Nat),
    parseDigitsAux (natDigits n ++ rest) acc =
      parseDigitsAux rest (acc * 10 ^ (natDigits n).length + n) := by
  induction n using Nat.strong_induction_on with
  | _ n ih =>
    intro rest acc
    rw [natDigits_unfold]
    split
    · next h =>
      simp [parseDigitsAux, digitVal?_digitChar n h]
    · next h =>
      have hlt : n / 10 < n := Nat.div_lt_self (by omega) (by omega)
      rw [List.append_assoc]
      rw [ih (n / 10) hlt]
      have hmod : n % 10 < 10 := Nat.mod_lt _ (by omega)
      simp only [List.cons_append, List.nil_append, parseDigitsAux,
        digitVal?_digitChar (n % 10) hmod, List.length_append, List.length_cons,
        List.length_nil, Nat.zero_add]
      congr 1
      have hdm : 10 * (n / 10) + n % 10 = n := Nat.div_add_mod n 10
      calc (acc * 10 ^ (natDigits (n / 10)).length + n / 10) * 10 + n % 10
          = acc * (10 ^ (natDigits (n / 10)).length * 10) +
            (10 * (n / 10) + n % 10) := by ring
        _ = acc * 10 ^ ((natDigits (n / 10)).length + 1) + n := by
            rw [hdm, Nat.pow_succ]

theorem parseDigits_natDigits (n : Nat) : parseDigits (natDigits n) = some n := by
  obtain ⟨d, cs, heq, _⟩ := natDigits_shape n
  have h1 : parseDigitsAux (natDigits n ++ []) 0 =
      parseDigitsAux [] (0 * 10 ^ (natDigits n).length + n) :=
    parseDigitsAux_natDigits n [] 0
  simp only [List.append_nil, parseDigitsAux, Nat.zero_mul, Nat.zero_add] at h1
  rw [heq] at h1 ⊢
  exact h1

/-- Round trip: Python's `int` is a left inverse of `str` on integers. -/
theorem pyInt_pyStrInt (n : Int) : pyInt (pyStrInt n) = some n := by
  by_cases hneg : n < 0
  · have habs : ((n.natAbs : Int)) = -n := by
      have h0 : (0 : Int) ≤ -n := by omega
      have h1 := Int.natAbs_of_nonneg h0
      rwa [Int.natAbs_neg] at h1
    have hstep : pyInt ('-' :: natDigits n.natAbs)
        = (parseDigits (natDigits n.natAbs)).map (fun m => -(m : Int)) := rfl
    simp only [pyStrInt, if_pos hneg]
    rw [hstep, parseDigits_natDigits]
    show some (-(n.natAbs : Int)) = some n
    rw [habs, neg_neg]
  · simp only [pyStrInt, if_neg hneg]
    obtain ⟨d, cs, heq, hd⟩ := natDigits_shape n.natAbs
    obtain ⟨hne1, hne2⟩ := digitChar_not_sign d hd
    rw [heq]
    simp only [pyInt, if_neg hne1, if_neg hne2]
    rw [← heq, parseDigits_natDigits]
    show some ((n.natAbs : Int)) = some n
    rw [Int.natAbs_of_nonneg (by omega)]

theorem drop_length_append (xs ys : List α) : (xs ++ ys).drop xs.length = ys := by
  induction xs with
  | nil => rfl
  | cons a as ih => simp only [List.cons_append, List.length_cons, List.drop_succ_cons]; exact ih

theorem clean_label_formatLabel (n : Int) : clean_label (formatLabel n) = .ok n := by
  have h9 : labelTag.length = 9 := rfl
  have hdrop : (formatLabel n).drop 9 = pyStrInt n := by
    rw [formatLabel, ← h9, drop_length_append]
  rw [clean_label, hdrop, pyInt_pyStrInt]

theorem formatLabel_injective : Function.Injective formatLabel := by
  intro a b h
  have ha := clean_label_formatLabel a
  rw [h, clean_label_formatLabel b] at ha
  exact (Except.ok.inj ha).symm

theorem mapE_eq_ok_map (f : α → Except PyError β) (g : α → β) :
    ∀ l : List α, (∀ a ∈ l, f a = .ok (g a)) → mapE f l = .ok (l.map g) := by
  intro l
  induction l with
  | nil => intro _; rfl
  | cons a as ih =>
    intro h
    have ha := h a (by simp)
    have has := ih (fun x hx => h x (by simp [hx]))
    simp [mapE, ha, has, Except.map]

theorem mapE_map (f : β → Except PyError γ) (h : α → β) (l : List α) :
    mapE f (l.map h) = mapE (fun a => f (h a)) l := by
  induction l with
  | nil => rfl
  | cons a as ih =>
    cases hfa : f (h a) <;> simp [mapE, hfa, ih]

theorem mapE_error_mem (f : α → Except PyError β) (e : PyError) :
    ∀ l : List α, mapE f l = .error e → ∃ a ∈ l, f a = .error e := by
  intro l
  induction l with
  | nil => intro h; exact absurd h (by simp [mapE])
  | cons a as ih =>
    intro h
    cases hfa : f a with
    | error e' =>
      rw [mapE, hfa] at h
      exact ⟨a, by simp, by rw [hfa, Except.error.inj h]⟩
    | ok b =>
      rw [mapE, hfa] at h
      cases hrec : mapE f as with
      | error e'' =>
        rw [hrec] at h
        simp only [Except.map] at h
        obtain ⟨x, hx, hfx⟩ := ih (by rw [hrec, Except.error.inj h])
        exact ⟨x, by simp [hx], hfx⟩
      | ok bs => rw [hrec] at h; simp [Except.map] at h

theorem mapE_error_of_mem (f : α → Except PyError β) (a : α) (e : PyError)
    (hfa : f a = .error e) :
    ∀ l : List α, a ∈ l → ∃ e', mapE f l = .error e' := by
  intro l
  induction l with
  | nil => intro h; exact absurd h (by simp)
  | cons b bs ih =>
    intro hmem
    cases hfb : f b with
    | error e' => exact ⟨e', by rw [mapE, hfb]⟩
    | ok v =>
      have hbs : a ∈ bs := by
        rcases List.mem_cons.mp hmem with h | h
        · subst h; rw [hfa] at hfb; exact absurd hfb (by simp)
        · exact h
      obtain ⟨e', he'⟩ := ih hbs
      exact ⟨e', by simp [mapE, hfb, he', Except.map]⟩

theorem zip_self_map (f : α → β) :
    ∀ l : List α, l.zip (l.map f) = l.map (fun a => (a, f a)) := by
  intro l
  induction l with
  | nil => rfl
  | cons a as ih => simp [ih]

theorem pyIndexE_mem (x : Text) :
    ∀ l : List Text, x ∈ l → pyIndexE l x = .ok (idxVal l x) := by
  intro l
  induction l with
  | nil => intro h; exact absurd h (by simp)
  | cons y ys ih =>
    intro hmem
    by_cases hxy : y = x
    · simp [pyIndexE, idxVal, hxy]
    · have hys : x ∈ ys := by
        rcases List.mem_cons.mp hmem with h | h
        · exact absurd h.symm hxy
        · exact h
      simp [pyIndexE, idxVal, hxy, ih hys, Except.map]

theorem pyIndexE_error (x : Text) (e : PyError) :
    ∀ l : List Text, pyIndexE l x = .error e → e = .valueError "is not in list" := by
  intro l
  induction l with
  | nil => intro h; exact (Except.error.inj h).symm
  | cons y ys ih =>
    intro h
    by_cases hxy : y = x
    · rw [pyIndexE, if_pos hxy] at h; exact absurd h (by simp)
    · rw [pyIndexE, if_neg hxy] at h
      cases hrec : pyIndexE ys x with
      | error e' =>
        rw [hrec, Except.map] at h
        exact ih (by rw [hrec, Except.error.inj h])
      | ok i => rw [hrec, Except.map] at h; exact absurd h (by simp)

theorem pyIndexE_not_mem (x : Text) :
    ∀ l : List Text, x ∉ l → ∃ msg, pyIndexE l x = .error (.valueError msg) := by
  intro l
  induction l with
  | nil => intro _; exact ⟨"is not in list", rfl⟩
  | cons y ys ih =>
    intro hmem
    have hxy : y ≠ x := fun h => hmem (by simp [h])
    have hys : x ∉ ys := fun h => hmem (by simp [h])
    obtain ⟨msg, hmsg⟩ := ih hys
    exact ⟨msg, by rw [pyIndexE, if_neg hxy, hmsg, Except.map]⟩

theorem idxVal_getElem (l : List Text) (hnd : l.Nodup) :
    ∀ (i : Nat) (h : i < l.length), idxVal l l[i] = i := by
  induction l with
  | nil => intro i h; exact absurd h (by simp)
  | cons y ys ih =>
    intro i h
    obtain ⟨hy, hys⟩ := List.nodup_cons.mp hnd
    cases i with
    | zero => simp [idxVal]
    | succ j =>
      have hj : j < ys.length := by simpa using h
      have hmem : ys[j] ∈ ys := List.getElem_mem hj
      have hne : y ≠ ys[j] := fun hcontra => hy (hcontra ▸ hmem)
      have : (y :: ys)[j + 1] = ys[j] := by simp
      rw [this, idxVal, if_neg hne, ih hys j hj]

theorem idxVal_inj (l : List Text) (a b : Text) :
    a ∈ l → b ∈ l → idxVal l a = idxVal l b → a = b := by
  induction l with
  | nil => intro h; exact absurd h (by simp)
  | cons y ys ih =>
    intro ha hb h
    by_cases hya : y = a <;> by_cases hyb : y = b
    · rw [← hya, ← hyb]
    · have hbys : b ∈ ys := by
        rcases List.mem_cons.mp hb with hc | hc
        · exact absurd hc.symm hyb
        · exact hc
      rw [idxVal, if_pos hya] at h
      rw [idxVal, if_neg hyb] at h
      exact absurd h.symm (Nat.succ_ne_zero _)
    · have hays : a ∈ ys := by
        rcases List.mem_cons.mp ha with hc | hc
        · exact absurd hc.symm hya
        · exact hc
      rw [idxVal, if_neg hya] at h
      rw [idxVal, if_pos hyb] at h
      exact absurd h (Nat.succ_ne_zero _)
    · have hays : a ∈ ys := by
        rcases List.mem_cons.mp ha with hc | hc
        · exact absurd hc.symm hya
        · exact hc
      have hbys : b ∈ ys := by
        rcases List.mem_cons.mp hb with hc | hc
        · exact absurd hc.symm hyb
        · exact hc
      rw [idxVal, if_neg hya] at h
      rw [idxVal, if_neg hyb] at h
      exact ih hays hbys (Nat.succ_injective h)

/-- When the model returns a permutation of the class registry with score
`f lbl` attached to label `lbl`, `_format_probas` succeeds and returns the
scores in registry order. -/
theorem format_probas_of_perm (CL labs : List Text) (f : Text → Rat)
    (hperm : labs.Perm CL) (hnd : CL.Nodup) :
    format_probas CL (labs, labs.map f) = .ok (CL.map f) := by
  have hlabsnd : labs.Nodup := hperm.nodup_iff.mpr hnd
  have hkeyed : mapE (fun p => (pyIndexE CL p.1).map (fun i => (i, p)))
      (labs.map (fun l => (l, f l)))
      = .ok (labs.map (fun l => (idxVal CL l, (l, f l)))) := by
    rw [mapE_map]
    apply mapE_eq_ok_map
    intro a ha
    rw [pyIndexE_mem a CL (hperm.subset ha), Except.map]
  have hpermK : (labs.map (fun l => (idxVal CL l, (l, f l)))).Perm
      (CL.map (fun l => (idxVal CL l, (l, f l)))) :=
    hperm.map _
  have hsortK : List.Sorted (fun (a b : Nat × (Text × Rat)) => a.1 ≤ b.1)
      (List.insertionSort (fun a b => a.1 ≤ b.1)
        (labs.map (fun l => (idxVal CL l, (l, f l))))) :=
    List.sorted_insertionSort _ _
  have hkeysnd : ((List.insertionSort (fun a b => a.1 ≤ b.1)
      (labs.map (fun l => (idxVal CL l, (l, f l))))).map Prod.fst).Nodup := by
    have h1 : ((labs.map (fun l => (idxVal CL l, (l, f l)))).map Prod.fst).Nodup := by
      rw [List.map_map]
      exact List.Nodup.map_on
        (fun x hx y hy hxy =>
          idxVal_inj CL x y (hperm.subset hx) (hperm.subset hy) hxy)
        hlabsnd
    exact ((List.perm_insertionSort _ _).symm.map Prod.fst).nodup h1
  have hstrictK : List.Pairwise (fun (a b : Nat × (Text × Rat)) => a.1 < b.1)
      (List.insertionSort (fun a b => a.1 ≤ b.1)
        (labs.map (fun l => (idxVal CL l, (l, f l))))) := by
    have hne := List.pairwise_map.mp hkeysnd
    exact (List.Pairwise.and hsortK hne).imp
      (fun h => Nat.lt_of_le_of_ne h.1 h.2)
  have hstrictT : List.Pairwise (fun (a b : Nat × (Text × Rat)) => a.1 < b.1)
      (CL.map (fun l => (idxVal CL l, (l, f l)))) := by
    rw [List.pairwise_iff_getElem]
    intro i j hi hj hij
    simp only [List.getElem_map]
    have hi' : i < CL.length := by simpa using hi
    have hj' : j < CL.length := by simpa using hj
    show idxVal CL CL[i] < idxVal CL CL[j]
    rw [idxVal_getElem CL hnd i hi', idxVal_getElem CL hnd j hj']
    exact hij
  have heq : List.insertionSort (fun a b => a.1 ≤ b.1)
      (labs.map (fun l => (idxVal CL l, (l, f l))))
      = CL.map (fun l => (idxVal CL l, (l, f l))) :=
    List.eq_of_perm_of_sorted ((List.perm_insertionSort _ _).trans hpermK)
      hstrictK hstrictT
  show format_probas CL (labs, labs.map f) = .ok (CL.map f)
  rw [format_probas]
  simp only [zip_self_map, hkeyed, heq, List.map_map]
  rfl

theorem unique_labels_sorted (ys : List Int) :
    List.Sorted (fun a b => a ≤ b) (unique_labels ys) :=
  List.sorted_insertionSort _ _

theorem unique_labels_nodup (ys : List Int) : (unique_labels ys).Nodup :=
  ((List.perm_insertionSort (fun a b => a ≤ b) ys.dedup).symm).nodup
    (List.nodup_dedup ys)

theorem unique_labels_mem (ys : List Int) (z : Int) :
    z ∈ unique_labels ys ↔ z ∈ ys := by
  rw [unique_labels, (List.perm_insertionSort (fun a b => a ≤ b) ys.dedup).mem_iff,
    List.mem_dedup]

theorem mapE_ok_length (f : α → Except PyError β) :
    ∀ (l : List α) (v : List β), mapE f l = .ok v → v.length = l.length := by
  intro l
  induction l with
  | nil => intro v h; rw [← Except.ok.inj h]; rfl
  | cons a as ih =>
    intro v h
    cases hfa : f a with
    | error e => rw [mapE, hfa] at h; exact absurd h (by simp)
    | ok b =>
      rw [mapE, hfa] at h
      cases hrec : mapE f as with
      | error e => rw [hrec] at h; exact absurd h (by simp [Except.map])
      | ok bs =>
        rw [hrec] at h
        have h' : (Except.ok (b :: bs) : Except PyError (List β)) = .ok v := h
        rw [← Except.ok.inj h']
        simp [ih bs hrec]

theorem getCol_length (d : DataFrame) (name : ColName) (vs : List Text)
    (hWF : ∀ c ∈ d.cols, c.values.length = d.nRows)
    (h : d.getCol name = .ok vs) : vs.length = d.nRows := by
  rw [DataFrame.getCol] at h
  cases hf : d.cols.find? (fun c => c.name == name) with
  | none => rw [hf] at h; exact absurd h (by simp)
  | some c =>
    rw [hf] at h
    rw [← Except.ok.inj h]
    exact hWF c (List.mem_of_find?_eq_some hf)

theorem ndarray_col_length (a : NDArray) (i : Nat) (col : List Text)
    (h : a.col i = .ok col) : col.length = a.rows.length := by
  rw [NDArray.col] at h
  by_cases hall : a.rows.all (fun r => i < r.length)
  · rw [if_pos hall] at h
    rw [← Except.ok.inj h, List.length_map]
  · rw [if_neg hall] at h
    exact absurd h (by simp)

/-- Each strategy extracts exactly one text per input row (for a rectangular
labeled table). -/
theorem input_col_length (st : Strategy) (X : XInput) (col : List Text)
    (hWF : X.WF) (h : input_col st X = .ok col) : col.length = X.nRows := by
  cases st with
  | firstCol =>
    cases X with
    | arr a => exact ndarray_col_length a 0 col h
    | df d => exact absurd h (by simp [input_col])
  | idxBased ix =>
    cases X with
    | arr a => exact ndarray_col_length a ix col h
    | df d => exact absurd h (by simp [input_col])
  | firstObj =>
    cases X with
    | arr a => exact absurd h (by simp [input_col])
    | df d =>
      cases hf : d.cols.find? (fun c => c.dtype == Dtype.object) with
      | none => simp [input_col, firstObjInputCol, hf] at h
      | some c =>
        simp only [input_col, firstObjInputCol, hf] at h
        by_cases htr : c.name.truthy = true
        · rw [if_pos htr] at h
          exact getCol_length d c.name col hWF h
        · rw [if_neg htr] at h
          exact absurd h (by simp)
  | colLbl lbl =>
    cases X with
    | arr a => exact absurd h (by simp [input_col])
    | df d => exact getCol_length d lbl col hWF h

theorem lookup_popInput (kw : Kwargs) : List.lookup "input" (popInput kw) = none := by
  induction kw with
  | nil => rfl
  | cons p ps ih =>
    obtain ⟨k, v⟩ := p
    by_cases hk : k = "input"
    · subst hk
      simpa [popInput, List.filter_cons] using ih
    · have hbeq : (k == "input") = false := by
        rw [beq_eq_false_iff_ne]; exact hk
      have hbeq2 : ("input" == k) = false := by
        rw [beq_eq_false_iff_ne]; exact Ne.symm hk
      simp only [popInput, List.filter_cons, hbeq, Bool.not_false, if_pos] at ih ⊢
      simp [List.lookup, hbeq2, ih]

theorem construct_lookup_input (var : Variant) (kw : Kwargs) :
    List.lookup "input" (construct var kw).kwargs = none := by
  cases var <;>
    simp [construct, FirstColFtClassifier.init, IdxBasedFtClassifier.init,
      FirstObjFtClassifier.init, ColLblBasedFtClassifier.init,
      FtClassifierABC.init, lookup_popInput]

/-- Inversion of a successful `fit`: the validations and the extraction
succeeded, the attribute state is exactly the one `fit` builds from `y`, and
the effect trace is the file write followed by the training call. -/
theorem fit_ok_inv (trainer : String → Kwargs → Model) (fpath : String)
    (c : FtClassifier) (X : XInput) (yShape : List Nat) (yData : List Int)
    (c' : FtClassifier) (effs : List Effect)
    (h : FtClassifier.fit trainer fpath c X yShape yData = (.ok c', effs)) :
    validate_x X.dtype = .ok () ∧ validate_y yShape = .ok () ∧
      ∃ col, input_col c.strategy X = .ok col ∧
        c' = { c with
          classes_ := some (unique_labels yData),
          num_classes_ := some (unique_labels yData).length,
          class_labels_ := some ((unique_labels yData).map formatLabel),
          temp_trainset_fpath := some fpath,
          model := some (trainer fpath c.kwargs) } ∧
        effs = [.fileWrite fpath (dump_xy_lines col yData),
                .trainCall fpath c.kwargs] := by
  cases hvx : validate_x X.dtype with
  | error e => simp [FtClassifier.fit, hvx] at h
  | ok u =>
    cases u
    cases hvy : validate_y yShape with
    | error e => simp [FtClassifier.fit, hvx, hvy] at h
    | ok u2 =>
      cases u2
      cases hic : input_col c.strategy X with
      | error e => simp [FtClassifier.fit, hvx, hvy, hic] at h
      | ok col =>
        simp only [FtClassifier.fit, hvx, hvy, hic, Prod.mk.injEq] at h
        obtain ⟨h1, h2⟩ := h
        exact ⟨rfl, rfl, col, rfl, (Except.ok.inj h1).symm, h2.symm⟩

theorem format_probas_ok_length (CL : List Text) (r : List Text × List Rat)
    (v : List Rat) (h : format_probas CL r = .ok v) :
    v.length = (r.1.zip r.2).length := by
  rw [format_probas] at h
  cases hm : mapE (fun p => (pyIndexE CL p.1).map (fun i => (i, p))) (r.1.zip r.2) with
  | error e => simp only [hm] at h; exact absurd h (by simp)
  | ok keyed =>
    simp only [hm] at h
    rw [← Except.ok.inj h, List.length_map,
      (List.perm_insertionSort (fun a b => a.1 ≤ b.1) keyed).length_eq]
    exact mapE_ok_length _ _ keyed hm

theorem format_probas_error_iff (CL : List Text) (r : List Text × List Rat) :
    (∃ msg, format_probas CL r = .error (.valueError msg)) ↔
      ∃ p ∈ r.1.zip r.2, p.1 ∉ CL := by
  constructor
  · rintro ⟨msg, hmsg⟩
    rw [format_probas] at hmsg
    cases hm : mapE (fun p => (pyIndexE CL p.1).map (fun i => (i, p))) (r.1.zip r.2) with
    | ok keyed => simp only [hm] at hmsg; exact absurd hmsg (by simp)
    | error e =>
      simp only [hm] at hmsg
      obtain ⟨p, hp, hFp⟩ := mapE_error_mem _ e _ hm
      refine ⟨p, hp, fun hmem => ?_⟩
      rw [pyIndexE_mem p.1 CL hmem] at hFp
      exact absurd hFp (by simp [Except.map])
  · rintro ⟨p, hp, hnotin⟩
    obtain ⟨msg0, hmsg0⟩ := pyIndexE_not_mem p.1 CL hnotin
    have hFp : (pyIndexE CL p.1).map (fun i => (i, p))
        = .error (.valueError msg0) := by
      simp [hmsg0, Except.map]
    obtain ⟨e', he'⟩ :=
      mapE_error_of_mem (fun q => (pyIndexE CL q.1).map (fun i => (i, q))) p
        (.valueError msg0) hFp _ hp
    obtain ⟨a, _, hFa⟩ := mapE_error_mem _ e' _ he'
    have hpy : pyIndexE CL a.1 = .error e' := by
      cases hpa : pyIndexE CL a.1 with
      | ok i => rw [hpa] at hFa; exact absurd hFa (by simp [Except.map])
      | error e'' =>
        rw [hpa] at hFa
        simp only [Except.map] at hFa
        rw [Except.error.inj hFa]
    have hclass := pyIndexE_error a.1 e' CL hpy
    refine ⟨"is not in list", ?_⟩
    rw [format_probas]
    simp only [he']
    rw [← hclass]

/-! ### The claims -/

/-- C10: the label decoding used by `predict` is a left inverse of the
prefixed-label encoding built at fit time: `_clean_label` applied to the
fixed prefix followed by the decimal form of any integer label `n` yields
`n` back, and the decoder drops exactly the prefix's length (9) in
characters. -/
theorem C10_clean_label_left_inverse (n : Int) :
    clean_label (formatLabel n) = .ok n ∧ labelTag.length = 9 :=
  ⟨clean_label_formatLabel n, rfl⟩

/-- C4 is false as stated: `'<U5'` is a fixed-width text element type, yet
the X validation rejects it with a `ValueError` — only the exact width-26
text dtype `'<U26'` is allowed. -/
theorem C4_counterexample :
    Dtype.isFixedWidthText (.unicode 5) = true ∧
      validate_x (.unicode 5) = .error (.valueError
        "FastTextClassifier methods must get a numpy array of dtype object as the X parameter.") :=
  ⟨rfl, rfl⟩

/-- C4 (amended): the X validation accepts exactly the 26-character
fixed-width text dtype `'<U26'` and the generic object dtype; every other
element dtype (including other fixed-width text widths) fails with a
`ValueError`-class error. -/
theorem C4_validate_x_amended (d : Dtype) :
    validate_x d = if d = .unicode 26 ∨ d = .object then .ok ()
      else .error (.valueError
        "FastTextClassifier methods must get a numpy array of dtype object as the X parameter.") := by
  by_cases h : d = .unicode 26 ∨ d = .object
  · have hm : d ∈ ALLOWED_DTYPES_ := by
      rcases h with h | h <;> simp [ALLOWED_DTYPES_, h]
    rw [validate_x, if_pos hm, if_pos h]
  · have hm : d ∉ ALLOWED_DTYPES_ := fun hmem =>
      h (by simpa [ALLOWED_DTYPES_] using hmem)
    rw [validate_x, if_neg hm, if_neg h]

/-- C8: whenever `y`'s rank is not one, `fit` fails with a `ValueError`-class
error, and the effect trace is empty — no training file is written and the
external trainer is not invoked. -/
theorem C8_fit_bad_y_rank (trainer : String → Kwargs → Model) (fpath : String)
    (c : FtClassifier) (X : XInput) (yShape : List Nat) (yData : List Int)
    (h : yShape.length ≠ 1) :
    ∃ msg, FtClassifier.fit trainer fpath c X yShape yData
      = (.error (.valueError msg), []) := by
  by_cases hd : X.dtype ∈ ALLOWED_DTYPES_
  · have hvx : validate_x X.dtype = .ok () := by rw [validate_x, if_pos hd]
    have hvy : validate_y yShape = .error (.valueError
        "FastTextClassifier methods must get a one-dimensional numpy array as the y parameter.") := by
      rw [validate_y, if_neg h]
    exact ⟨"FastTextClassifier methods must get a one-dimensional numpy array as the y parameter.",
      by simp only [FtClassifier.fit, hvx, hvy]⟩
  · have hvx : validate_x X.dtype = .error (.valueError
        "FastTextClassifier methods must get a numpy array of dtype object as the X parameter.") := by
      rw [validate_x, if_neg hd]
    exact ⟨"FastTextClassifier methods must get a numpy array of dtype object as the X parameter.",
      by simp only [FtClassifier.fit, hvx]⟩

/-- Witness for C8 at a concrete rank-2 `y`. -/
theorem C8_witness :
    ∃ msg, FtClassifier.fit noopTrainer "f" (FirstColFtClassifier.init [])
        (.arr ⟨.object, [["a".toList]]⟩) [2, 2] [0, 1]
      = (.error (.valueError msg), []) :=
  C8_fit_bad_y_rank noopTrainer "f" (FirstColFtClassifier.init [])
    (.arr ⟨.object, [["a".toList]]⟩) [2, 2] [0, 1] (by decide)

/-- C9: for every adapter variant, constructing with an options mapping that
contains the reserved key 'input' stores an options mapping without that key,
and any successful `fit` invokes the trainer with the adapter's own training
file path and exactly the stored options — so the caller's 'input' value is
never forwarded. -/
theorem C9_input_key_stripped (var : Variant) (kw : Kwargs) (v : String)
    (hmem : ("input", v) ∈ kw)
    (trainer : String → Kwargs → Model) (fpath : String) (X : XInput)
    (yShape : List Nat) (yData : List Int) :
    List.lookup "input" (construct var kw).kwargs = none ∧
      ((FtClassifier.fit trainer fpath (construct var kw) X yShape yData).2 = [] ∨
        ∃ lines, (FtClassifier.fit trainer fpath (construct var kw) X yShape yData).2
          = [.fileWrite fpath lines,
             .trainCall fpath (construct var kw).kwargs]) := by
  refine ⟨construct_lookup_input var kw, ?_⟩
  cases hvx : validate_x X.dtype with
  | error e => left; simp [FtClassifier.fit, hvx]
  | ok u =>
    cases u
    cases hvy : validate_y yShape with
    | error e => left; simp [FtClassifier.fit, hvx, hvy]
    | ok u2 =>
      cases u2
      cases hic : input_col (construct var kw).strategy X with
      | error e => left; simp [FtClassifier.fit, hvx, hvy, hic]
      | ok col =>
        right
        exact ⟨dump_xy_lines col yData, by simp [FtClassifier.fit, hvx, hvy, hic]⟩

/-- Witness for C9: a first-column adapter constructed with an 'input' entry,
fitted on a concrete one-row table. -/
theorem C9_witness :
    List.lookup "input"
        (construct .firstCol [("input", "evil"), ("epoch", "5")]).kwargs = none ∧
      ((FtClassifier.fit noopTrainer "f"
            (construct .firstCol [("input", "evil"), ("epoch", "5")])
            (.arr ⟨.object, [["a".toList]]⟩) [1] [0]).2 = [] ∨
        ∃ lines, (FtClassifier.fit noopTrainer "f"
            (construct .firstCol [("input", "evil"), ("epoch", "5")])
            (.arr ⟨.object, [["a".toList]]⟩) [1] [0]).2
          = [.fileWrite "f" lines,
             .trainCall "f" (construct .firstCol [("input", "evil"), ("epoch", "5")]).kwargs]) :=
  C9_input_key_stripped .firstCol [("input", "evil"), ("epoch", "5")] "evil"
    (by simp) noopTrainer "f" (.arr ⟨.object, [["a".toList]]⟩) [1] [0]

/-- C7 is false as stated: on a freshly constructed (unfitted) adapter,
`predict_proba` fails with a plain `AttributeError` (reading the missing
`num_classes_` attribute), not a `NotFittedError`-class error. -/
theorem C7_counterexample :
    (FirstColFtClassifier.init []).predict_proba (.arr ⟨.object, [["a".toList]]⟩)
        = .error .attributeError ∧
      PyError.attributeError ≠ PyError.notFittedError :=
  ⟨rfl, by decide⟩

/-- C7 (amended): for every adapter variant, calling `predict` before `fit`
fails with a `NotFittedError`-class error, while calling `predict_proba`
before `fit` fails with an `AttributeError`: the `self.num_classes_` argument
is evaluated before `_predict`'s fitted check can run. -/
theorem C7_unfitted_amended (var : Variant) (kw : Kwargs) (X : XInput) :
    (construct var kw).predict X = .error .notFittedError ∧
      (construct var kw).predict_proba X = .error .attributeError := by
  have hmodel : (construct var kw).model = none := by cases var <;> rfl
  have hnum : (construct var kw).num_classes_ = none := by cases var <;> rfl
  constructor
  · simp [FtClassifier.predict, FtClassifier.predictRaw, hmodel]
  · simp [FtClassifier.predict_proba, hnum]

/-- C6: evaluation at the failing input. The only column of `falsyNameDF`
has the object dtype, yet the labeled-first-text extraction raises
`ValueError("No object dtype column in input param X.")`, because
`if input_col_name:` tests the truthiness of the remembered column label
`0` instead of comparing it with `None`. -/
theorem C6_firstObj_falsy_name_eval :
    (∃ c ∈ falsyNameDF.cols, c.dtype = Dtype.object) ∧
      firstObjInputCol falsyNameDF
        = .error (.valueError "No object dtype column in input param X.") :=
  ⟨⟨⟨.int 0, .object, ["good".toList]⟩, by simp [falsyNameDF], rfl⟩, rfl⟩

/-- C3: evaluation at the failing input. `IdxBasedFtClassifier` and
`ColLblBasedFtClassifier` discard the construction options (their
`__init__` calls `super().__init__()` without forwarding `**kwargs`), so a
`fit` on such an adapter invokes the trainer with no options at all, while
the base-class constructor used by `FirstColFtClassifier` does store them. -/
theorem C3_kwargs_dropped_eval :
    (IdxBasedFtClassifier.init 0 [("epoch", "5")]).kwargs = [] ∧
      (ColLblBasedFtClassifier.init (.str "text") [("epoch", "5")]).kwargs = [] ∧
      (FirstColFtClassifier.init [("epoch", "5")]).kwargs = [("epoch", "5")] ∧
      (FtClassifier.fit noopTrainer "f"
          (IdxBasedFtClassifier.init 0 [("epoch", "5")])
          (.arr ⟨.object, [["a".toList]]⟩) [1] [0]).2
        = [.fileWrite "f" (dump_xy_lines ["a".toList] [0]),
           .trainCall "f" []] :=
  ⟨rfl, rfl, rfl, rfl⟩

/-- C5 is false as stated: with two classes at fit time and a model that
returns a single (label, score) result whose label is in the registry,
`predict_proba` does not fail with a `ValueError`-class error — it silently
returns a length-1 vector. -/
theorem C5_counterexample :
    (shortModel "hi".toList 2).1.length < 2 ∧
      shortState.num_classes_ = some 2 ∧
      shortState.predict_proba (.arr ⟨.object, [["hi".toList]]⟩)
        = .ok [[(1 : Rat)]] :=
  ⟨by decide, rfl, rfl⟩

/-- C5 (amended): the reordering lookup fails with a `ValueError`-class
error iff the model returned a (label, score) pair whose label is not in the
class registry; when all returned labels are in the registry the lookup
succeeds and yields one score per returned pair — a silently shorter vector
when fewer than number-of-classes results come back. -/
theorem C5_format_probas_amended (CL : List Text) (r : List Text × List Rat) :
    ((∃ msg, format_probas CL r = .error (.valueError msg)) ↔
      ∃ pr ∈ r.1.zip r.2, pr.1 ∉ CL) ∧
    ∀ v, format_probas CL r = .ok v → v.length = (r.1.zip r.2).length :=
  ⟨format_probas_error_iff CL r, fun v h => format_probas_ok_length CL r v h⟩

/-- Witness for C5 (amended): a missing label yields the `ValueError`, and a
registry label yields a length-1 vector. -/
theorem C5_amended_witness :
    (∃ msg, format_probas ["__label__0".toList]
        (["__label__1".toList], [(1 : Rat)]) = .error (.valueError msg)) ∧
      ([(1 : Rat)].length
        = ((["__label__0".toList] : List Text).zip [(1 : Rat)]).length) :=
  ⟨(C5_format_probas_amended ["__label__0".toList]
        (["__label__1".toList], [(1 : Rat)])).1.mpr
      ⟨("__label__1".toList, (1 : Rat)), by decide, by decide⟩,
    (C5_format_probas_amended ["__label__0".toList]
        (["__label__0".toList], [(1 : Rat)])).2 [(1 : Rat)] rfl⟩

/-- C1: for every fitted adapter and every valid input table `X`, `predict`
returns one integer per row of `X`, in input order: for each row it takes
the model's single best (top-1) label for that row's extracted text, strips
the label prefix, and parses the remainder as an integer. -/
theorem C1_predict_decodes_top1 (c : FtClassifier) (m : Model) (X : XInput)
    (col : List Text) (v : Text → Int)
    (hm : c.model = some m)
    (hdt : validate_x X.dtype = .ok ())
    (hWF : X.WF)
    (hcol : input_col c.strategy X = .ok col)
    (hv : ∀ t ∈ col, (m t 1).1.head? = some (formatLabel (v t))) :
    c.predict X = .ok (col.map v) ∧ (col.map v).length = X.nRows := by
  have hraw : c.predictRaw X 1 = .ok (col.map (fun t => m t 1)) := by
    simp only [FtClassifier.predictRaw, hm, hdt, hcol]
  constructor
  · simp only [FtClassifier.predict, hraw, mapE_map]
    apply mapE_eq_ok_map
    intro t ht
    simp only [hv t ht]
    exact clean_label_formatLabel (v t)
  · rw [List.length_map]
    exact input_col_length c.strategy X col hWF hcol

/-- Witness for C1: a fitted first-column adapter whose model always answers
`__label__5` decodes both rows of a two-row table to `5`. -/
theorem C1_witness :
    c1State.predict (.arr ⟨.object, [["a".toList], ["b".toList]]⟩)
        = .ok [5, 5] ∧
      ((["a".toList, "b".toList] : List Text).map (fun _ => (5 : Int))).length
        = (XInput.arr ⟨.object, [["a".toList], ["b".toList]]⟩).nRows :=
  C1_predict_decodes_top1 c1State c1Model
    (.arr ⟨.object, [["a".toList], ["b".toList]]⟩)
    ["a".toList, "b".toList] (fun _ => (5 : Int))
    rfl rfl trivial rfl (fun _ _ => rfl)

/-- C2: for every adapter fitted on labels `y` and every valid input table,
when the model answers each top-(number of classes) query with a labeled
permutation of the class registry, `predict_proba` returns one score vector
per row whose entries are the model's scores reordered to the canonical
sorted order of the distinct labels observed at `fit` time; the registry
consulted at prediction time (`class_labels_`/`num_classes_`) is exactly the
one recorded from `y` at `fit` time, and every vector's length is the number
of distinct labels observed during `fit`. -/
theorem C2_predict_proba_canonical (trainer : String → Kwargs → Model)
    (fpath : String) (c0 c : FtClassifier) (Xf Xp : XInput)
    (yShape : List Nat) (yData : List Int) (effs : List Effect) (m : Model)
    (col : List Text) (p : Text → Text → Rat)
    (hfit : FtClassifier.fit trainer fpath c0 Xf yShape yData = (.ok c, effs))
    (hm : c.model = some m)
    (hdt : validate_x Xp.dtype = .ok ())
    (hWF : Xp.WF)
    (hcol : input_col c.strategy Xp = .ok col)
    (hres : ∀ t ∈ col, ∃ labs : List Text,
      labs.Perm ((unique_labels yData).map formatLabel) ∧
        m t (unique_labels yData).length = (labs, labs.map (p t))) :
    c.predict_proba Xp
        = .ok (col.map (fun t => ((unique_labels yData).map formatLabel).map (p t))) ∧
      c.class_labels_ = some ((unique_labels yData).map formatLabel) ∧
      c.num_classes_ = some (unique_labels yData).length ∧
      List.Sorted (fun a b => a ≤ b) (unique_labels yData) ∧
      (∀ z : Int, z ∈ unique_labels yData ↔ z ∈ yData) ∧
      (∀ row ∈ col.map (fun t => ((unique_labels yData).map formatLabel).map (p t)),
        row.length = (unique_labels yData).length) ∧
      col.length = Xp.nRows := by
  obtain ⟨hvx, hvy, col0, hic0, hc, heffs⟩ :=
    fit_ok_inv trainer fpath c0 Xf yShape yData c effs hfit
  have hcls : c.class_labels_ = some ((unique_labels yData).map formatLabel) := by
    rw [hc]
  have hnum : c.num_classes_ = some (unique_labels yData).length := by
    rw [hc]
  have hCLnodup : ((unique_labels yData).map formatLabel).Nodup :=
    (unique_labels_nodup yData).map formatLabel_injective
  have hraw : c.predictRaw Xp (unique_labels yData).length
      = .ok (col.map (fun t => m t (unique_labels yData).length)) := by
    simp only [FtClassifier.predictRaw, hm, hdt, hcol]
  have hppa : c.predict_proba Xp
      = .ok (col.map (fun t => ((unique_labels yData).map formatLabel).map (p t))) := by
    simp only [FtClassifier.predict_proba, hnum, hraw, mapE_map, hcls]
    apply mapE_eq_ok_map
    intro t ht
    obtain ⟨labs, hperm, hmt⟩ := hres t ht
    rw [hmt]
    exact format_probas_of_perm _ labs (p t) hperm hCLnodup
  refine ⟨hppa, hcls, hnum, unique_labels_sorted yData,
    fun z => unique_labels_mem yData z, ?_,
    input_col_length c.strategy Xp col hWF hcol⟩
  intro row hrow
  obtain ⟨t, _, hteq⟩ := List.mem_map.mp hrow
  rw [← hteq, List.length_map, List.length_map]

/-- Witness for C2: fitting on labels `[1, 0]` and querying a model that
scores the classes 1/4 and 3/4 yields vectors in sorted-class order. -/
theorem C2_witness :
    probaState.predict_proba probaX
      = .ok [[(1 : Rat) / 4, (3 : Rat) / 4], [(1 : Rat) / 4, (3 : Rat) / 4]] :=
  (C2_predict_proba_canonical probaTrainer "f" (FirstColFtClassifier.init [])
    probaState probaX probaX [2] [1, 0]
    (FtClassifier.fit probaTrainer "f" (FirstColFtClassifier.init [])
      probaX [2] [1, 0]).2
    probaModel ["a".toList, "b".toList] probaP
    rfl rfl rfl trivial rfl
    (fun _ _ => ⟨["__label__1".toList, "__label__0".toList], by decide, rfl⟩)).1
